import Mathlib

/-!
# Verification of the gitlab-runner-kubevirt driver

A shallow embedding, in Lean 4, of the core logic of the
`gitlab-runner-kubevirt` GitLab custom-executor driver (Go), together with
theorems settling a list of claims about its specification.

Embedding conventions:
* Go strings are modelled as Lean `String`s, except where the code indexes
  into or slices them byte-wise, where `List Char` is used.
* External collaborators (the Kubernetes/KubeVirt control plane, the SSH
  transport, the quantity parser, the hash function) are modelled as
  parameters or as traces of their observable answers; the driver's own
  logic is translated statement by statement from the source.
* Fallible Go functions returning `(T, error)` become `Except String T`.
-/

/-! ## Identity deriver (`main.go`, `digest`)

`digest(hashfunc, v...)` feeds a byte stream into an incremental hash and
returns the hexadecimal digest.  For each argument the code executes:

* `binary.Write(digest, binary.BigEndian, len(v))` — field count;
* per string field: `binary.Write(digest, binary.BigEndian, len(e))`
  followed by `io.WriteString(digest, e)`.

`encoding/binary.Write` only supports *fixed-size* Go types
(`int8/16/32/64`, `uint8/…`, floats, and composites thereof).  For a plain
Go `int` — which is what `len(...)` returns — it writes **nothing** and
returns the error `binary.Write: invalid type int`; the source discards
that error.  The model below reflects this observable behaviour of the
collaborator: a `binary.Write` of a Go `int` contributes no bytes.
-/

/-- UTF-8 bytes of a Go string (what `io.WriteString` writes). -/
def utf8Bytes (s : String) : List Nat :=
  (s.data.flatMap String.utf8EncodeChar).map UInt8.toNat

/-- Bytes emitted by `binary.Write(w, binary.BigEndian, n)` when `n` has Go
type `int`: none — `encoding/binary` rejects the platform-sized `int` type
("invalid type int") and writes nothing; `digest` ignores the error. -/
def binaryWriteGoInt (_ : Nat) : List Nat := []

/-- The byte stream fed to the hash by `digest` for a list of string
fields: the (attempted) field-count write, then per field the (attempted)
length write followed by the field's bytes. -/
def digestStream (v : List String) : List Nat :=
  binaryWriteGoInt v.length ++
    v.flatMap (fun e => binaryWriteGoInt e.length ++ utf8Bytes e)

/-- `digest` itself: the hash (an external collaborator, e.g. SHA-1 with
hexadecimal rendering) applied to the byte stream. -/
def digest (hashfunc : List Nat → String) (v : List String) : String :=
  hashfunc (digestStream v)

/-- C1: the identity deriver does NOT length-disambiguate field partitions.
Because `binary.Write` is a no-op for Go `int` values (error discarded),
neither the field count nor any field length reaches the hash, so the
spec's own example partition `["ab","c"]` vs `["a","bc"]` feeds the
identical byte stream `"abc"` to the hash and yields the identical
identity, for every hash function. -/
theorem digest_partition_collision :
    digestStream ["ab", "c"] = digestStream ["a", "bc"] ∧
    digestStream ["ab", "c"] = [97, 98, 99] ∧
    ∀ hashfunc, digest hashfunc ["ab", "c"] = digest hashfunc ["a", "bc"] := by
  refine ⟨by decide, by decide, fun hashfunc => ?_⟩
  unfold digest
  norm_num [digestStream, binaryWriteGoInt, utf8Bytes]

/-! ## Data model: virtual machine instances and watch events

Only the observable attributes the driver consumes are modelled
(`run.go`, `prepare.go`, `cleanup.go`).  Event kinds
(`k8s.io/apimachinery/pkg/watch.EventType`) are strings in Go
(`"ADDED"`, `"MODIFIED"`, `"DELETED"`, `"ERROR"`, and `""` for a
zero-valued event); they are kept as strings here.
-/

/-- A network interface in an instance's status. -/
structure VMInterface where
  ip : String
deriving DecidableEq, Repr

/-- A named condition in an instance's status. -/
structure VMCondition where
  condType : String
  status : String
deriving DecidableEq, Repr

/-- A virtual machine instance, restricted to the fields the driver
reads: name, resource version, phase, interfaces, conditions. -/
structure VMI where
  name : String
  resourceVersion : String
  phase : String
  interfaces : List VMInterface
  conditions : List VMCondition
deriving DecidableEq, Repr

/-- The payload of a watch event: either a `metav1.Status` (carried by
`"ERROR"` events) or a `*VirtualMachineInstance`. -/
inductive EventObject where
  | status (reason message : String)
  | vmi (v : VMI)
deriving DecidableEq, Repr

/-- One observable answer of the watch subscription channel inside
`WatchJobVM`'s `select`: a received event `(event.Type, event.Object)`,
a channel closure (`ok == false`), or the context deadline firing. -/
inductive ChanItem where
  | closed
  | event (t : String) (obj : EventObject)
  | ctxDone
deriving DecidableEq, Repr

/-- Result of the caller-supplied callback `fn`: `none` models a `nil`
error (keep watching), `some .done` models `ErrWatchDone`, and
`some (.fail e)` any other error. -/
inductive WatchSignal where
  | done
  | fail (e : String)
deriving DecidableEq, Repr

/-- Outcome of running `WatchJobVM` against a finite trace of channel
answers.  `waiting` means the trace was exhausted with the watcher still
subscribed and blocked in its `select`. -/
inductive WatchOutcome where
  | ok
  | failed (e : String)
  | panicked
  | timedOut
  | waiting
deriving DecidableEq, Repr

/-- The Go callback type `func(watch.EventType, *VMI) error`. -/
def WatchFn := String → Option VMI → Option WatchSignal

/-- The resource version `WatchJobVM` subscribes with at the top of its
outer loop: `opts.ResourceVersion = initial.ResourceVersion` when
`initial != nil`, otherwise `opts.ResourceVersion` is left as it was. -/
def watchCursor (initial : Option VMI) (optsRV : String) : String :=
  match initial with
  | some vm => vm.resourceVersion
  | none => optsRV

/-- The body of `WatchJobVM` (`run.go`), as a function of the trace of
channel answers.  Returns the outcome together with the list of resource
versions of every (re)subscription performed *after* the initial one.

Translation notes, branch by branch:
* `.ctxDone` — `case <-ctx.Done(): return ctx.Err()`;
* `.closed` and an event with `event.Type == ""` — `continue outer`,
  i.e. resubscribe at `watchCursor initial opts.ResourceVersion`;
* an `"ERROR"` event — the object is type-asserted to `*metav1.Status`
  (a different payload panics), `fn` is called with a nil object; a
  `nil` return then executes `initial.ResourceVersion = "0"` (panicking
  if `initial` is nil) and resubscribes; `ErrWatchDone` returns success;
  any other error is returned;
* any other event — the object is type-asserted to `*VMI` (a `Status`
  payload panics), `fn` is called with it; `nil` advances
  `initial = val` and keeps receiving; `ErrWatchDone` returns success;
  any other error is returned. -/
def watchGo (fn : WatchFn) :
    Option VMI → String → List ChanItem → WatchOutcome × List String
  | _, _, [] => (.waiting, [])
  | initial, optsRV, item :: rest =>
    match item with
    | .ctxDone => (.timedOut, [])
    | .closed =>
      let rv := watchCursor initial optsRV
      let r := watchGo fn initial rv rest
      (r.1, rv :: r.2)
    | .event t obj =>
      if t = "" then
        let rv := watchCursor initial optsRV
        let r := watchGo fn initial rv rest
        (r.1, rv :: r.2)
      else if t = "ERROR" then
        match obj with
        | .vmi _ => (.panicked, [])
        | .status _ _ =>
          match fn "ERROR" none with
          | some .done => (.ok, [])
          | some (.fail e) => (.failed e, [])
          | none =>
            match initial with
            | none => (.panicked, [])
            | some vm =>
              let initial' : Option VMI := some { vm with resourceVersion := "0" }
              let rv := watchCursor initial' optsRV
              let r := watchGo fn initial' rv rest
              (r.1, rv :: r.2)
      else
        match obj with
        | .status _ _ => (.panicked, [])
        | .vmi v =>
          match fn t (some v) with
          | some .done => (.ok, [])
          | some (.fail e) => (.failed e, [])
          | none => watchGo fn (some v) optsRV rest

/-- `WatchJobVM(ctx, client, jctx, initial, fn)` run against a finite
trace: the first subscription uses `opts` fresh from `Selector` (whose
`ResourceVersion` is the empty string) updated from `initial` when
non-nil.  The returned list contains the cursor of every subscription,
the initial one included. -/
def WatchJobVM (fn : WatchFn) (initial : Option VMI) (items : List ChanItem) :
    WatchOutcome × List String :=
  let rv := watchCursor initial ""
  let r := watchGo fn initial rv items
  (r.1, rv :: r.2)

/-! ## The two watch callbacks (`prepare`/`run.go` and `cleanup.go`) -/

/-- The readiness callback passed to `WatchJobVM` by `PrepareCmd.Run`:
on a watch error, return nil (retry); otherwise require a first interface
with a non-empty IP, then scan the conditions for `"Ready"`/`"True"` and
signal `ErrWatchDone` when found.  (For non-`"ERROR"` events the loop
always passes a non-nil object, so the `none` case is unreachable there;
it is mapped to "continue".) -/
def prepareCallback : WatchFn := fun et val =>
  if et = "ERROR" then none
  else
    match val with
    | none => none
    | some vm =>
      match vm.interfaces with
      | [] => none
      | i :: _ =>
        if i.ip = "" then none
        else if vm.conditions.any (fun c => c.condType = "Ready" ∧ c.status = "True") then
          some .done
        else none

/-- The deletion callback passed to `WatchJobVM` by `CleanupCmd.Run`:
both a watch error (abandon: the machine may already be gone) and a
`"DELETED"` event signal `ErrWatchDone`; everything else keeps waiting. -/
def cleanupCallback : WatchFn := fun et _ =>
  if et = "ERROR" then some .done
  else if et = "DELETED" then some .done
  else none

/-- `watchCursor` is idempotent in its second argument: resubscribing
without touching `initial` reuses the same cursor. -/
theorem watchCursor_idem (initial : Option VMI) (optsRV : String) :
    watchCursor initial (watchCursor initial optsRV) = watchCursor initial optsRV := by
  cases initial <;> rfl

/-- C2: policy on control-plane error events is the caller's.  With the
provisioning callback the watcher resets the cursor to the resync
sentinel `"0"`, resubscribes and keeps waiting (and a later deadline
expiry times it out); with the deletion callback the watcher returns
success at once, ignoring the rest of the trace. -/
theorem watch_error_event_policy :
    ∀ (vm : VMI) (reason msg : String) (rest : List ChanItem),
      WatchJobVM prepareCallback (some vm)
          [ChanItem.event "ERROR" (EventObject.status reason msg)] =
        (WatchOutcome.waiting, [vm.resourceVersion, "0"]) ∧
      WatchJobVM prepareCallback (some vm)
          [ChanItem.event "ERROR" (EventObject.status reason msg), ChanItem.ctxDone] =
        (WatchOutcome.timedOut, [vm.resourceVersion, "0"]) ∧
      WatchJobVM cleanupCallback (some vm)
          (ChanItem.event "ERROR" (EventObject.status reason msg) :: rest) =
        (WatchOutcome.ok, [vm.resourceVersion]) := by
  intro vm reason msg rest
  refine ⟨?_, ?_, ?_⟩ <;>
    simp [WatchJobVM, watchGo, watchCursor, prepareCallback, cleanupCallback]

/-- C8: transport noise — a closed channel or an event with no kind — is
absorbed: for a trace made only of such items, the watcher resubscribes
each time from the last-seen cursor, never invokes the callback (the
result does not depend on `fn`), and surfaces no error (the outcome is
still `waiting`). -/
theorem watch_noise_absorbed :
    ∀ (items : List ChanItem),
      (∀ it ∈ items, it = ChanItem.closed ∨ ∃ obj, it = ChanItem.event "" obj) →
      ∀ (fn : WatchFn) (initial : Option VMI) (optsRV : String),
        watchGo fn initial optsRV items =
          (WatchOutcome.waiting,
            List.replicate items.length (watchCursor initial optsRV)) := by
  intro items
  induction items with
  | nil => intro _ fn initial optsRV; simp [watchGo]
  | cons it rest ih =>
    intro h fn initial optsRV
    have hrest : ∀ x ∈ rest, x = ChanItem.closed ∨ ∃ obj, x = ChanItem.event "" obj :=
      fun x hx => h x (List.mem_cons_of_mem _ hx)
    have hrec := ih hrest fn initial (watchCursor initial optsRV)
    rcases h it (List.mem_cons_self _ _) with h1 | ⟨obj, h2⟩
    · subst h1
      simp [watchGo, hrec, watchCursor_idem, List.replicate_succ]
    · subst h2
      simp [watchGo, hrec, watchCursor_idem, List.replicate_succ]

/-- Witness for C8 at a concrete trace: two noise items, a callback that
would fail if it were ever consulted, and a concrete instance — the
watcher just resubscribes twice at the instance's resource version. -/
theorem watch_noise_absorbed_witness :
    (∀ it ∈ [ChanItem.closed, ChanItem.event "" (EventObject.status "r" "m")],
        it = ChanItem.closed ∨ ∃ obj, it = ChanItem.event "" obj) ∧
      watchGo (fun _ _ => some (WatchSignal.fail "boom"))
          (some { name := "vm", resourceVersion := "42", phase := "Running",
                  interfaces := [], conditions := [] })
          "7" [ChanItem.closed, ChanItem.event "" (EventObject.status "r" "m")] =
        (WatchOutcome.waiting, ["42", "42"]) := by
  have hnoise : ∀ it ∈ [ChanItem.closed, ChanItem.event "" (EventObject.status "r" "m")],
      it = ChanItem.closed ∨ ∃ obj, it = ChanItem.event "" obj := by
    intro it hit
    fin_cases hit
    · exact Or.inl rfl
    · exact Or.inr ⟨EventObject.status "r" "m", rfl⟩
  exact ⟨hnoise, watch_noise_absorbed _ hnoise _ _ _⟩

/-- C10: if the watcher is started with a nil initial instance and a
control-plane error event arrives whose callback keeps going (returns
nil), the statement `initial.ResourceVersion = "0"` dereferences the nil
pointer and the process panics.  The initial subscription used the empty
resource version left in `opts`. -/
theorem watch_nil_initial_error_panics :
    ∀ (fn : WatchFn) (reason msg : String) (rest : List ChanItem),
      fn "ERROR" none = none →
      WatchJobVM fn none
          (ChanItem.event "ERROR" (EventObject.status reason msg) :: rest) =
        (WatchOutcome.panicked, [""]) := by
  intro fn reason msg rest hfn
  simp [WatchJobVM, watchGo, watchCursor, hfn]

/-- Witness for C10: the provisioning callback is exactly such an
error-tolerant callback, and with it a nil initial instance panics. -/
theorem watch_nil_initial_error_panics_witness :
    prepareCallback "ERROR" none = none ∧
      WatchJobVM prepareCallback none
          [ChanItem.event "ERROR" (EventObject.status "r" "m")] =
        (WatchOutcome.panicked, [""]) :=
  ⟨by decide, watch_nil_initial_error_panics prepareCallback "r" "m" [] (by decide)⟩

/-! ## Readiness predicate (claim C3)

`PrepareCmd.Run`'s callback checks
`len(vm.Status.Interfaces) == 0 || vm.Status.Interfaces[0].IP == ""` —
i.e. specifically the *first* interface's address — before scanning the
conditions, not "at least one interface with a non-empty address".
-/

/-- An instance whose first interface has an empty address but whose
second has a real one, and which carries the `"Ready"`/`"True"`
condition. -/
def vmSecondIfaceReady : VMI :=
  { name := "vm", resourceVersion := "5", phase := "Running",
    interfaces := [{ ip := "" }, { ip := "10.0.0.1" }],
    conditions := [{ condType := "Ready", status := "True" }] }

/-- C3 counterexample: this instance has an interface with a non-empty
address and a `"Ready"`/`"True"` condition, so the claim says the
readiness predicate returns true; but the callback inspects only the
*first* interface's address (which is empty) and keeps waiting (`nil`,
not `ErrWatchDone`). -/
theorem readiness_any_interface_counterexample :
    (vmSecondIfaceReady.interfaces.any fun i => i.ip ≠ "") = true ∧
      (vmSecondIfaceReady.conditions.any fun c =>
        c.condType = "Ready" ∧ c.status = "True") = true ∧
      prepareCallback "MODIFIED" (some vmSecondIfaceReady) = none := by
  decide

/-- C3 amended: for every non-error event, the readiness callback signals
done if and only if the instance has at least one network interface, the
*first* interface's address is non-empty, and the condition list contains
an entry named `"Ready"` with status `"True"`. -/
theorem readiness_first_interface_iff :
    ∀ (et : String) (vm : VMI), et ≠ "ERROR" →
      (prepareCallback et (some vm) = some WatchSignal.done ↔
        (∃ i rest, vm.interfaces = i :: rest ∧ i.ip ≠ "") ∧
          ∃ c ∈ vm.conditions, c.condType = "Ready" ∧ c.status = "True") := by
  intro et vm het
  unfold prepareCallback
  rcases hif : vm.interfaces with _ | ⟨i, rest⟩ <;>
    simp [het, hif, List.any_eq_true]

/-- Witness for C3's amended theorem: a one-interface ready instance. -/
theorem readiness_first_interface_iff_witness :
    ("MODIFIED" : String) ≠ "ERROR" ∧
      (prepareCallback "MODIFIED"
          (some { name := "vm", resourceVersion := "5", phase := "Running",
                  interfaces := [{ ip := "10.0.0.1" }],
                  conditions := [{ condType := "Ready", status := "True" }] }) =
          some WatchSignal.done ↔
        (∃ i rest,
            ({ name := "vm", resourceVersion := "5", phase := "Running",
               interfaces := [{ ip := "10.0.0.1" }],
               conditions := [{ condType := "Ready", status := "True" }] } : VMI).interfaces =
              i :: rest ∧ i.ip ≠ "") ∧
          ∃ c ∈ ({ name := "vm", resourceVersion := "5", phase := "Running",
                   interfaces := [{ ip := "10.0.0.1" }],
                   conditions := [{ condType := "Ready", status := "True" }] } : VMI).conditions,
            c.condType = "Ready" ∧ c.status = "True") :=
  ⟨by decide, readiness_first_interface_iff "MODIFIED" _ (by decide)⟩

/-! ## Instance locator (`FindJobVM`, claim C6)

`FindJobVM` lists the instances labeled with the job identity and
inspects only the length of the answer; it performs no mutation (the
model is a pure function of the returned list). -/

instance : Inhabited VMI :=
  ⟨{ name := "", resourceVersion := "", phase := "", interfaces := [], conditions := [] }⟩

/-- Error for a zero-match lookup. -/
def vanishedMsg : String :=
  "Virtual Machine instance disappeared while the job was running!"

/-- Error for an ambiguous lookup: includes the item count and the identity. -/
def ambiguousMsg (count : Nat) (id : String) : String :=
  "Virtual Machine instance has ambiguous ID! " ++ toString count ++
    " instances found with ID " ++ id

/-- `FindJobVM` (`run.go`) as a function of the job identity and of the
list of instances the control plane returned for the identity label. -/
def FindJobVM (id : String) (items : List VMI) : Except String VMI :=
  if items.length = 0 then .error vanishedMsg
  else if items.length > 1 then .error (ambiguousMsg items.length id)
  else .ok (items.headD default)

/-- C6: locating the job's instance fails with the vanished-instance
error on zero items, fails with the ambiguous-identity error (carrying
the item count and the identity) on two or more, and returns the single
item otherwise. -/
theorem findJobVM_cases :
    ∀ (id : String) (items : List VMI),
      (items = [] → FindJobVM id items = .error vanishedMsg) ∧
      (2 ≤ items.length → FindJobVM id items = .error (ambiguousMsg items.length id)) ∧
      (∀ v, items = [v] → FindJobVM id items = .ok v) := by
  intro id items
  refine ⟨?_, ?_, ?_⟩
  · rintro rfl; rfl
  · intro h2
    unfold FindJobVM
    rw [if_neg (by omega), if_pos (by omega)]
  · rintro v rfl; rfl

/-- Witness for C6: a two-item list is rejected as ambiguous with count 2,
a one-item list is returned. -/
theorem findJobVM_cases_witness :
    2 ≤ ([default, default] : List VMI).length ∧
      FindJobVM "deadbeef" [default, default] =
        .error (ambiguousMsg ([default, default] : List VMI).length "deadbeef") ∧
      FindJobVM "deadbeef" [default] = .ok default :=
  ⟨by decide, (findJobVM_cases "deadbeef" [default, default]).2.1 (by decide),
    (findJobVM_cases "deadbeef" [default]).2.2 default rfl⟩

/-! ## Deprovisioner skip predicates (`cleanup.go`, claim C9)

`CleanupCmd.Run` walks `--skip-if` predicates in order; a predicate
starting with `"!"` matches when the phase differs from the rest of the
predicate, any other predicate matches when the phase equals it; the
first match skips deletion and returns success.  Go's byte-level string
operations (`strings.HasPrefix`, `skipIf[1:]`) are modelled on
`List Char`. -/

/-- Whether one `--skip-if` predicate matches the instance phase:
`check := phase == skipIf`, overridden to `phase != skipIf[1:]` when the
predicate starts with `"!"`. -/
def skipMatch (phase pred : List Char) : Bool :=
  if ['!'].isPrefixOf pred then phase ≠ pred.drop 1 else phase = pred

/-- What cleanup does after locating the instance: skip (return success
before deleting) or proceed to delete. -/
inductive CleanupAction where
  | skip (pred : List Char)
  | delete
deriving DecidableEq, Repr

/-- The `for _, skipIf := range cmd.SkipIf` loop: first matching
predicate skips; if none matches, fall through to the delete request. -/
def cleanupDecision (phase : List Char) : List (List Char) → CleanupAction
  | [] => .delete
  | p :: rest => if skipMatch phase p then .skip p else cleanupDecision phase rest

/-- C9: predicates are evaluated in list order with first-match-wins;
`"!<q>"` matches exactly when the phase differs from `q`, a predicate not
starting with `"!"` matches exactly when the phase equals it; phase
`"Running"` with predicate `"Running"` skips, and with `"!Running"`
proceeds to delete. -/
theorem cleanup_skip_predicates :
    ∀ (phase p q : List Char),
      (skipMatch phase ('!' :: q) = decide (phase ≠ q)) ∧
      (¬ ['!'].isPrefixOf p → skipMatch phase p = decide (phase = p)) ∧
      (∀ rest, cleanupDecision phase (p :: rest) =
        if skipMatch phase p then .skip p else cleanupDecision phase rest) ∧
      cleanupDecision "Running".data ["Running".data] = .skip "Running".data ∧
      cleanupDecision "Running".data ["!Running".data] = .delete := by
  intro phase p q
  refine ⟨?_, ?_, fun rest => rfl, by decide, by decide⟩
  · simp [skipMatch, List.isPrefixOf]
  · intro hp
    simp [skipMatch, hp]

/-- Witness for C9: the positive predicate `"Running"` does not start
with `"!"`, and then matches exactly on phase equality. -/
theorem cleanup_skip_predicates_witness :
    ¬ ['!'].isPrefixOf "Running".data ∧
      skipMatch "Running".data "Running".data =
        decide ("Running".data = "Running".data) :=
  ⟨by decide,
    (cleanup_skip_predicates "Running".data "Running".data []).2.1 (by decide)⟩

/-! ## Remote executor: connect with retry (`DialSSH`, claim C5)

`DialSSH` loops forever: it checks the context, attempts
`sshclient.Dial`, and then inspects the error.  Only a `*net.OpError`
whose `Op` is `"dial"` leads to `time.Sleep(back.NextBackOff())` and
another attempt; any other non-nil error is returned at once; a nil
error returns the client.  The SSH transport is an external
collaborator, modelled as the trace of the outcomes of the successive
`sshclient.Dial` calls; the context deadline is modelled as the trace
running out.

The backoff is `backoff.NewExponentialBackOff()` with
`MaxInterval = 5 * time.Second`: the nominal interval starts at 500 ms
and is multiplied by 1.5 after each attempt, saturating at 5000 ms (the
library's ±50% randomization of each returned interval is abstracted to
the nominal value; milliseconds are the unit). -/

/-- Outcome of one `sshclient.Dial` call: a transport-level dial error
(`*net.OpError` with `Op == "dial"`), any other error (authentication
rejection, handshake failure, ...), or a connected client (opaque id). -/
inductive DialAttempt where
  | dialErr (e : String)
  | otherErr (e : String)
  | ok (clientId : Nat)
deriving DecidableEq, Repr

/-- The next nominal backoff interval: grow by 1.5, saturate at
`MaxInterval` (5000 ms). -/
def nextInterval (cur : Nat) : Nat := min (cur * 3 / 2) 5000

/-- The `DialSSH` retry loop over a trace of dial outcomes, carrying the
current nominal backoff interval.  Returns the loop's result together
with the list of sleeps performed (one per retried dial failure); an
exhausted trace is the context deadline expiring at the loop head. -/
def dialSSHLoop : List DialAttempt → Nat → Except String Nat × List Nat
  | [], _ => (.error "context deadline exceeded", [])
  | a :: rest, cur =>
    match a with
    | .ok c => (.ok c, [])
    | .otherErr e => (.error e, [])
    | .dialErr _ =>
      let r := dialSSHLoop rest (nextInterval cur)
      (r.1, cur :: r.2)

/-- `DialSSH` proper: the loop started at the library's initial nominal
interval of 500 ms. -/
def DialSSH (attempts : List DialAttempt) : Except String Nat × List Nat :=
  dialSSHLoop attempts 500

/-- The sleeps performed while retrying through a prefix of attempts:
the current nominal interval for each one, advancing the backoff. -/
def dialSleeps : List DialAttempt → Nat → List Nat
  | [], _ => []
  | _ :: rest, cur => cur :: dialSleeps rest (nextInterval cur)

theorem dialSleeps_length (pre : List DialAttempt) :
    ∀ cur, (dialSleeps pre cur).length = pre.length := by
  induction pre with
  | nil => intro cur; rfl
  | cons a pre ih => intro cur; simp [dialSleeps, ih]

/-- A dial-error prefix is retried through: on `pre ++ tail` the loop
sleeps once per failure in `pre` and then behaves exactly as on `tail`
with the backoff advanced `pre.length` times. -/
theorem dialSSHLoop_dial_prefix (pre : List DialAttempt)
    (hpre : ∀ a ∈ pre, ∃ d, a = DialAttempt.dialErr d) :
    ∀ (cur : Nat) (tail : List DialAttempt),
      dialSSHLoop (pre ++ tail) cur =
        ((dialSSHLoop tail (Nat.iterate nextInterval pre.length cur)).1,
          dialSleeps pre cur ++
            (dialSSHLoop tail (Nat.iterate nextInterval pre.length cur)).2) := by
  induction pre with
  | nil => intro cur tail; simp [dialSleeps]
  | cons a pre ih =>
    intro cur tail
    obtain ⟨d, rfl⟩ := hpre a (List.mem_cons_self _ _)
    have ih' := ih (fun x hx => hpre x (List.mem_cons_of_mem _ hx))
      (nextInterval cur) tail
    simp only [List.cons_append, dialSSHLoop, List.length_cons, dialSleeps]
    rw [Function.iterate_succ_apply]
    rw [show (pre.append tail) = pre ++ tail from rfl, ih']

/-- Every sleep the loop performs is at most the 5000 ms interval cap,
provided the current nominal interval is within the cap (as the initial
500 ms is). -/
theorem dialSSHLoop_sleeps_bounded :
    ∀ (attempts : List DialAttempt) (cur : Nat), cur ≤ 5000 →
      ∀ s ∈ (dialSSHLoop attempts cur).2, s ≤ 5000 := by
  intro attempts
  induction attempts with
  | nil => intro cur _ s hs; simp [dialSSHLoop] at hs
  | cons a rest ih =>
    intro cur hcur s hs
    cases a with
    | ok c => simp [dialSSHLoop] at hs
    | otherErr e => simp [dialSSHLoop] at hs
    | dialErr d =>
      simp only [dialSSHLoop, List.mem_cons] at hs
      rcases hs with rfl | hs
      · exact hcur
      · exact ih (nextInterval cur) (min_le_right _ _) s hs

/-- C5: in the connect-with-retry loop, a dial-failure prefix is retried
(one bounded sleep per failure); the first non-dial failure is returned
as-is at once, independently of any later attempts the trace might still
hold; and a dial-failure prefix followed by a success returns that
connection.  All sleeps are bounded by the 5000 ms interval cap. -/
theorem dialSSH_retry_policy :
    ∀ (pre rest : List DialAttempt) (e : String) (c : Nat),
      (∀ a ∈ pre, ∃ d, a = DialAttempt.dialErr d) →
      (DialSSH (pre ++ DialAttempt.otherErr e :: rest) =
          DialSSH (pre ++ [DialAttempt.otherErr e]) ∧
        (DialSSH (pre ++ DialAttempt.otherErr e :: rest)).1 = .error e ∧
        (DialSSH (pre ++ DialAttempt.otherErr e :: rest)).2.length = pre.length) ∧
      (DialSSH (pre ++ DialAttempt.ok c :: rest)).1 = .ok c ∧
      (∀ attempts, ∀ s ∈ (DialSSH attempts).2, s ≤ 5000) := by
  intro pre rest e c hpre
  have h₁ := dialSSHLoop_dial_prefix pre hpre 500 (DialAttempt.otherErr e :: rest)
  have h₂ := dialSSHLoop_dial_prefix pre hpre 500 [DialAttempt.otherErr e]
  have h₃ := dialSSHLoop_dial_prefix pre hpre 500 (DialAttempt.ok c :: rest)
  refine ⟨⟨?_, ?_, ?_⟩, ?_, ?_⟩
  · show dialSSHLoop _ 500 = dialSSHLoop _ 500
    rw [h₁, h₂]
    simp [dialSSHLoop]
  · show (dialSSHLoop _ 500).1 = _
    rw [h₁]
    simp [dialSSHLoop]
  · show (dialSSHLoop _ 500).2.length = _
    rw [h₁]
    simp [dialSSHLoop, dialSleeps_length]
  · show (dialSSHLoop _ 500).1 = _
    rw [h₃]
    simp [dialSSHLoop]
  · intro attempts s hs
    exact dialSSHLoop_sleeps_bounded attempts 500 (by norm_num) s hs

/-- Witness for C5: two connection-refused dial failures, then an
authentication failure — returned at once even though the trace could
have offered a working connection afterwards. -/
theorem dialSSH_retry_policy_witness :
    (∀ a ∈ [DialAttempt.dialErr "connection refused",
            DialAttempt.dialErr "connection refused"],
        ∃ d, a = DialAttempt.dialErr d) ∧
      (DialSSH [DialAttempt.dialErr "connection refused",
                DialAttempt.dialErr "connection refused",
                DialAttempt.otherErr "ssh: unable to authenticate",
                DialAttempt.ok 7]).1 =
        .error "ssh: unable to authenticate" ∧
      (DialSSH [DialAttempt.dialErr "connection refused",
                DialAttempt.dialErr "connection refused",
                DialAttempt.ok 7]).1 = .ok 7 := by
  have hpre : ∀ a ∈ [DialAttempt.dialErr "connection refused",
      DialAttempt.dialErr "connection refused"], ∃ d, a = DialAttempt.dialErr d := by
    intro a ha
    fin_cases ha <;> exact ⟨"connection refused", rfl⟩
  have h := dialSSH_retry_policy
    [DialAttempt.dialErr "connection refused", DialAttempt.dialErr "connection refused"]
    [DialAttempt.ok 7] "ssh: unable to authenticate" 7 hpre
  exact ⟨hpre, h.1.2.1, h.2.1⟩

/-! ## Provisioner resource requirements (`CreateJobVM`, claim C4)

`CreateJobVM` walks an ordered list of six `(destination map, resource
name, string)` entries — request and limit for cpu, memory and
ephemeral-storage — skipping empty strings and parsing the rest with
`resource.ParseQuantity` (an external collaborator, modelled as a
parameter).  A parse failure returns
`fmt.Errorf("parsing %s quantity: %w", e.Key, err)` before any creation
request is built or submitted.  The two Go maps are modelled as
association lists where assignment conses a binding that shadows older
ones (`List.lookup` takes the newest). -/

/-- An opaque parsed quantity. -/
structure Quantity where
  raw : String
deriving DecidableEq, Repr

/-- Which of the two resource lists an entry addresses. -/
inductive RL where
  | req
  | lim
deriving DecidableEq, Repr

/-- The six string fields of the job context consumed by the builder. -/
structure JobResources where
  cpuRequest : String
  cpuLimit : String
  memoryRequest : String
  memoryLimit : String
  ephemeralStorageRequest : String
  ephemeralStorageLimit : String
deriving DecidableEq, Repr

/-- The ordered `toParse` slice: request and limit for `"cpu"`,
`"memory"`, `"ephemeral-storage"` (the values of `k8sapi.ResourceCPU`,
`ResourceMemory`, `ResourceEphemeralStorage`). -/
def toParse (j : JobResources) : List (RL × String × String) :=
  [(RL.req, "cpu", j.cpuRequest), (RL.lim, "cpu", j.cpuLimit),
   (RL.req, "memory", j.memoryRequest), (RL.lim, "memory", j.memoryLimit),
   (RL.req, "ephemeral-storage", j.ephemeralStorageRequest),
   (RL.lim, "ephemeral-storage", j.ephemeralStorageLimit)]

/-- The `for _, e := range toParse` loop: skip empty strings, parse the
rest, store into the requests or limits map, fail on the first parse
error with the resource name in the message. -/
def buildLoop (parse : String → Except String Quantity) :
    List (RL × String × String) → List (String × Quantity) → List (String × Quantity) →
      Except String (List (String × Quantity) × List (String × Quantity))
  | [], reqs, lims => .ok (reqs, lims)
  | (w, k, v) :: rest, reqs, lims =>
    if v = "" then buildLoop parse rest reqs lims
    else
      match parse v with
      | .error err => .error ("parsing " ++ k ++ " quantity: " ++ err)
      | .ok q =>
        match w with
        | RL.req => buildLoop parse rest ((k, q) :: reqs) lims
        | RL.lim => buildLoop parse rest reqs ((k, q) :: lims)

/-- The requests and limits maps `CreateJobVM` builds (both start empty). -/
def buildResources (parse : String → Except String Quantity) (j : JobResources) :
    Except String (List (String × Quantity) × List (String × Quantity)) :=
  buildLoop parse (toParse j) [] []

/-- The instance creation request `CreateJobVM` submits on success. -/
structure InstanceTemplate where
  requests : List (String × Quantity)
  limits : List (String × Quantity)
  image : String
deriving DecidableEq, Repr

/-- `CreateJobVM` up to the submission: build the resource requirements,
check the image, and only then produce the creation request handed to
`client.VirtualMachineInstance(ns).Create` — an `error` result means the
function returned before any creation request was submitted. -/
def CreateJobVM (parse : String → Except String Quantity) (j : JobResources)
    (image : String) : Except String InstanceTemplate :=
  match buildResources parse j with
  | .error e => .error e
  | .ok (reqs, lims) =>
    if image = "" then .error "must specify a containerdisk image"
    else .ok { requests := reqs, limits := lims, image := image }

/-- Looking a key up after a map assignment (modelled as a shadowing
cons): present exactly when it is the assigned key or was present
before. -/
theorem lookup_cons_isSome (reqs : List (String × Quantity)) (ek k : String) (q : Quantity) :
    ((((ek, q) :: reqs : List (String × Quantity)).lookup k).isSome) ↔
      (k = ek ∨ (reqs.lookup k).isSome) := by
  by_cases hk : k = ek
  · subst hk; simp [List.lookup]
  · have hbeq : (k == ek) = false := beq_eq_false_iff_ne.mpr hk
    simp [List.lookup, hbeq, hk]

set_option maxHeartbeats 1000000 in
/-- Characterization of the maps a successful run of the loop produces:
a key is present in the final requests (resp. limits) map exactly when
it was present initially or some entry addressed to that map carries it
with a non-empty value. -/
theorem buildLoop_ok_lookup (parse : String → Except String Quantity) :
    ∀ (entries : List (RL × String × String)) (reqs lims r l : List (String × Quantity)),
      buildLoop parse entries reqs lims = .ok (r, l) →
      ∀ k : String,
        ((r.lookup k).isSome ↔
          ((reqs.lookup k).isSome ∨ ∃ v, (RL.req, k, v) ∈ entries ∧ v ≠ "")) ∧
        ((l.lookup k).isSome ↔
          ((lims.lookup k).isSome ∨ ∃ v, (RL.lim, k, v) ∈ entries ∧ v ≠ "")) := by
  intro entries
  induction entries with
  | nil =>
    intro reqs lims r l h k
    simp only [buildLoop, Except.ok.injEq, Prod.mk.injEq] at h
    obtain ⟨rfl, rfl⟩ := h
    simp
  | cons e rest ih =>
    obtain ⟨w, ek, ev⟩ := e
    intro reqs lims r l h k
    by_cases hv : ev = ""
    · subst hv
      rw [buildLoop, if_pos rfl] at h
      have hiff := ih reqs lims r l h k
      constructor
      · rw [hiff.1]
        simp only [List.mem_cons, Prod.mk.injEq, or_and_right, exists_or]
        constructor <;> intro hx <;> tauto
      · rw [hiff.2]
        simp only [List.mem_cons, Prod.mk.injEq, or_and_right, exists_or]
        constructor <;> intro hx <;> tauto
    · rw [buildLoop, if_neg hv] at h
      rcases hq : parse ev with err | q <;> rw [hq] at h
      · cases h
      · cases w <;> dsimp only at h
        · have hiff := ih ((ek, q) :: reqs) lims r l h k
          have hex : (∃ v, (k = ek ∧ v = ev) ∧ ¬v = "") ↔ k = ek := by
            constructor
            · rintro ⟨v, ⟨hk, rfl⟩, -⟩; exact hk
            · intro hk; exact ⟨ev, ⟨hk, rfl⟩, hv⟩
          constructor
          · rw [hiff.1, lookup_cons_isSome]
            simp only [List.mem_cons, Prod.mk.injEq, true_and, or_and_right, exists_or]
            rw [hex]
            tauto
          · rw [hiff.2]
            simp only [List.mem_cons, Prod.mk.injEq, or_and_right, exists_or]
            constructor <;> intro hx <;> tauto
        · have hiff := ih reqs ((ek, q) :: lims) r l h k
          have hex : (∃ v, (k = ek ∧ v = ev) ∧ ¬v = "") ↔ k = ek := by
            constructor
            · rintro ⟨v, ⟨hk, rfl⟩, -⟩; exact hk
            · intro hk; exact ⟨ev, ⟨hk, rfl⟩, hv⟩
          constructor
          · rw [hiff.1]
            simp only [List.mem_cons, Prod.mk.injEq, or_and_right, exists_or]
            constructor <;> intro hx <;> tauto
          · rw [hiff.2, lookup_cons_isSome]
            simp only [List.mem_cons, Prod.mk.injEq, true_and, or_and_right, exists_or]
            rw [hex]
            tauto

/-- If any entry carries a non-empty string the parser rejects, the loop
fails, and the message is `"parsing <resource> quantity: <parse error>"`
for one of the offending entries — the resource name is included, but
nothing in the message says whether it was the request or the limit. -/
theorem buildLoop_error_of_bad (parse : String → Except String Quantity) :
    ∀ (entries : List (RL × String × String)) (reqs lims : List (String × Quantity)),
      (∃ w k v, (w, k, v) ∈ entries ∧ v ≠ "" ∧ ∃ m, parse v = .error m) →
      ∃ k' m', buildLoop parse entries reqs lims =
          .error ("parsing " ++ k' ++ " quantity: " ++ m') ∧
        ∃ w' v', (w', k', v') ∈ entries ∧ v' ≠ "" ∧ parse v' = .error m' := by
  intro entries
  induction entries with
  | nil =>
    rintro reqs lims ⟨w, k, v, hmem, -⟩
    simp at hmem
  | cons e rest ih =>
    obtain ⟨w, ek, ev⟩ := e
    rintro reqs lims ⟨w', k', v', hmem, hne, m, hm⟩
    by_cases hv : ev = ""
    · subst hv
      have hbad : ∃ w k v, (w, k, v) ∈ rest ∧ v ≠ "" ∧ ∃ m, parse v = .error m := by
        rcases List.mem_cons.mp hmem with heq | hmem'
        · obtain ⟨-, -, rfl⟩ := Prod.mk.injEq .. ▸ heq
          exact absurd rfl hne
        · exact ⟨w', k', v', hmem', hne, m, hm⟩
      obtain ⟨k₀, m₀, hrun, w₀, v₀, hmem₀, hne₀, hm₀⟩ := ih reqs lims hbad
      rw [buildLoop, if_pos rfl]
      exact ⟨k₀, m₀, hrun, w₀, v₀, List.mem_cons_of_mem _ hmem₀, hne₀, hm₀⟩
    · rcases hq : parse ev with errm | q
      · refine ⟨ek, errm, ?_, w, ev, List.mem_cons_self _ _, hv, hq⟩
        rw [buildLoop, if_neg hv, hq]
      · have hbad : ∃ w k v, (w, k, v) ∈ rest ∧ v ≠ "" ∧ ∃ m, parse v = .error m := by
          rcases List.mem_cons.mp hmem with heq | hmem'
          · obtain ⟨-, -, rfl⟩ := Prod.mk.injEq .. ▸ heq
            rw [hm] at hq
            cases hq
          · exact ⟨w', k', v', hmem', hne, m, hm⟩
        cases w
        · obtain ⟨k₀, m₀, hrun, w₀, v₀, hmem₀, hne₀, hm₀⟩ := ih ((ek, q) :: reqs) lims hbad
          refine ⟨k₀, m₀, ?_, w₀, v₀, List.mem_cons_of_mem _ hmem₀, hne₀, hm₀⟩
          rw [buildLoop, if_neg hv, hq]
          exact hrun
        · obtain ⟨k₀, m₀, hrun, w₀, v₀, hmem₀, hne₀, hm₀⟩ := ih reqs ((ek, q) :: lims) hbad
          refine ⟨k₀, m₀, ?_, w₀, v₀, List.mem_cons_of_mem _ hmem₀, hne₀, hm₀⟩
          rw [buildLoop, if_neg hv, hq]
          exact hrun

/-- A concrete quantity parser rejecting the spec's malformed example
`"1x"` and accepting everything else. -/
def parse1x : String → Except String Quantity := fun s =>
  if s = "1x" then .error "unable to parse quantity" else .ok { raw := s }

/-- A job context whose cpu *request* is malformed. -/
def jctxReqBad : JobResources :=
  { cpuRequest := "1x", cpuLimit := "", memoryRequest := "", memoryLimit := "",
    ephemeralStorageRequest := "", ephemeralStorageLimit := "" }

/-- A job context whose cpu *limit* is malformed. -/
def jctxLimBad : JobResources :=
  { cpuRequest := "", cpuLimit := "1x", memoryRequest := "", memoryLimit := "",
    ephemeralStorageRequest := "", ephemeralStorageLimit := "" }

/-- C4 counterexample: the parse-failure error names the offending
resource but NOT whether it was a request or a limit — a malformed cpu
request and a malformed cpu limit produce the *identical* error
`"parsing cpu quantity: ..."` (the message is
`fmt.Errorf("parsing %s quantity: %w", e.Key, err)`), so the error
cannot be naming which bound failed, contrary to the claim. -/
theorem resource_error_bound_kind_counterexample :
    jctxReqBad ≠ jctxLimBad ∧
      CreateJobVM parse1x jctxReqBad "img:latest" =
        .error "parsing cpu quantity: unable to parse quantity" ∧
      CreateJobVM parse1x jctxLimBad "img:latest" =
        .error "parsing cpu quantity: unable to parse quantity" := by
  refine ⟨by decide, rfl, rfl⟩

/-- C4 amended: for every parser and every combination of the six
request/limit strings, a successful build omits from the requests and
limits maps exactly the resources whose string is empty; a malformed
(non-empty, parse-rejected) string makes the build fail with a
quantity-parse error naming the offending resource (but not whether it
was a request or limit); and on failure `CreateJobVM` returns that error
before any creation request is produced. -/
theorem createJobVM_resources_amended :
    ∀ (parse : String → Except String Quantity) (j : JobResources) (image : String),
      (∀ reqs lims, buildResources parse j = .ok (reqs, lims) →
        (((reqs.lookup "cpu").isSome ↔ j.cpuRequest ≠ "") ∧
          ((lims.lookup "cpu").isSome ↔ j.cpuLimit ≠ "") ∧
          ((reqs.lookup "memory").isSome ↔ j.memoryRequest ≠ "") ∧
          ((lims.lookup "memory").isSome ↔ j.memoryLimit ≠ "") ∧
          ((reqs.lookup "ephemeral-storage").isSome ↔ j.ephemeralStorageRequest ≠ "") ∧
          ((lims.lookup "ephemeral-storage").isSome ↔ j.ephemeralStorageLimit ≠ ""))) ∧
      ((∃ w k v, (w, k, v) ∈ toParse j ∧ v ≠ "" ∧ ∃ m, parse v = .error m) →
        ∃ k' m', buildResources parse j =
            .error ("parsing " ++ k' ++ " quantity: " ++ m') ∧
          ∃ w' v', (w', k', v') ∈ toParse j ∧ v' ≠ "" ∧ parse v' = .error m') ∧
      (∀ e, buildResources parse j = .error e → CreateJobVM parse j image = .error e) := by
  intro parse j image
  refine ⟨?_, ?_, ?_⟩
  · intro reqs lims h
    have hlk := buildLoop_ok_lookup parse (toParse j) [] [] reqs lims h
    refine ⟨?_, ?_, ?_, ?_, ?_, ?_⟩
    · rw [(hlk "cpu").1]; simp [toParse]
    · rw [(hlk "cpu").2]; simp [toParse]
    · rw [(hlk "memory").1]; simp [toParse]
    · rw [(hlk "memory").2]; simp [toParse]
    · rw [(hlk "ephemeral-storage").1]; simp [toParse]
    · rw [(hlk "ephemeral-storage").2]; simp [toParse]
  · intro hbad
    exact buildLoop_error_of_bad parse (toParse j) [] [] hbad
  · intro e he
    unfold CreateJobVM
    rw [he]

/-- A parser accepting everything, for the witness. -/
def parseOk : String → Except String Quantity := fun s => .ok { raw := s }

/-- A job context with only a cpu limit and a memory request set. -/
def jctxW : JobResources :=
  { cpuRequest := "", cpuLimit := "1", memoryRequest := "2Gi", memoryLimit := "",
    ephemeralStorageRequest := "", ephemeralStorageLimit := "" }

/-- Witness for C4's amended theorem: on a context with an empty cpu
request the built requests map has no `"cpu"` entry, and a malformed cpu
request makes the build fail with the resource-naming error. -/
theorem createJobVM_resources_amended_witness :
    buildResources parseOk jctxW =
        .ok ([("memory", { raw := "2Gi" })], [("cpu", { raw := "1" })]) ∧
      ((([("memory", ({ raw := "2Gi" } : Quantity))] :
          List (String × Quantity)).lookup "cpu").isSome ↔ jctxW.cpuRequest ≠ "") ∧
      (∃ w k v, (w, k, v) ∈ toParse jctxReqBad ∧ v ≠ "" ∧ ∃ m, parse1x v = .error m) ∧
      (∃ k' m', buildResources parse1x jctxReqBad =
          .error ("parsing " ++ k' ++ " quantity: " ++ m') ∧
        ∃ w' v', (w', k', v') ∈ toParse jctxReqBad ∧ v' ≠ "" ∧ parse1x v' = .error m') := by
  have hok : buildResources parseOk jctxW =
      .ok ([("memory", { raw := "2Gi" })], [("cpu", { raw := "1" })]) := rfl
  have hbad : ∃ w k v, (w, k, v) ∈ toParse jctxReqBad ∧ v ≠ "" ∧
      ∃ m, parse1x v = .error m :=
    ⟨RL.req, "cpu", "1x", by decide, by decide, "unable to parse quantity", rfl⟩
  exact ⟨hok, ((createJobVM_resources_amended parseOk jctxW "img").1 _ _ hok).1,
    hbad, (createJobVM_resources_amended parse1x jctxReqBad "img").2.1 hbad⟩

/-! ## Console-shell command encoding (`generateShellArgv`, claim C7)

For `pwsh`, `generateShellArgv` builds a three-line command block
(console-encoding switch, interpreter invocation of the script,
exit-code propagation), encodes it as UTF-16 little-endian
(`golang.org/x/text/encoding/unicode`, `IgnoreBOM`), base64-encodes the
bytes (`encoding/base64.StdEncoding`) and passes the result as the final
`-EncodedCommand` argument.  The two external codecs are modelled
bit-precisely below, together with decoders, so that the round-trip can
be stated.  Bytes are `Nat`s below 256. -/

/-- UTF-16 code units of one Unicode scalar value, as little-endian
bytes: scalars below 2^16 as one unit, the rest as a surrogate pair. -/
def utf16leEncodeChar (c : Char) : List Nat :=
  if c.toNat < 65536 then [c.toNat % 256, c.toNat / 256]
  else
    [(55296 + (c.toNat - 65536) / 1024) % 256, (55296 + (c.toNat - 65536) / 1024) / 256,
     (56320 + (c.toNat - 65536) % 1024) % 256, (56320 + (c.toNat - 65536) % 1024) / 256]

/-- UTF-16LE encoding of a whole string (as its scalar-value list). -/
def utf16leEncode (s : List Char) : List Nat := s.flatMap utf16leEncodeChar

/-- UTF-16LE decoding: pair up bytes little-endian; a unit outside the
surrogate range is a scalar, a high surrogate must be followed by a low
surrogate, anything else is malformed. -/
def utf16leDecode : List Nat → Option (List Char)
  | [] => some []
  | b0 :: b1 :: rest =>
    if b0 + 256 * b1 < 55296 ∨ 57344 ≤ b0 + 256 * b1 then
      (utf16leDecode rest).map (fun cs => Char.ofNat (b0 + 256 * b1) :: cs)
    else if b0 + 256 * b1 < 56320 then
      match rest with
      | b2 :: b3 :: rest2 =>
        if 56320 ≤ b2 + 256 * b3 ∧ b2 + 256 * b3 < 57344 then
          (utf16leDecode rest2).map
            (fun cs =>
              Char.ofNat (65536 + (b0 + 256 * b1 - 55296) * 1024 + (b2 + 256 * b3 - 56320)) :: cs)
        else none
      | _ => none
    else none
  | _ => none

/-- Rebuilding a `Char` from its scalar value. -/
theorem char_ofNat_toNat (c : Char) : Char.ofNat c.toNat = c := by
  have hv : c.toNat.isValidChar := c.valid
  apply Char.eq_of_val_eq
  simp [Char.ofNat, hv, Char.ofNatAux]
  apply UInt32.eq_of_toBitVec_eq
  apply BitVec.eq_of_toNat_eq
  simp [Char.toNat]
  rfl

/-- Each UTF-16LE byte of one scalar is below 256. -/
theorem utf16leEncodeChar_lt (c : Char) : ∀ b ∈ utf16leEncodeChar c, b < 256 := by
  intro b hb
  have hval : c.toNat < 55296 ∨ (57343 < c.toNat ∧ c.toNat < 1114112) := c.valid
  unfold utf16leEncodeChar at hb
  by_cases hlt : c.toNat < 65536
  · rw [if_pos hlt] at hb
    simp only [List.mem_cons, List.not_mem_nil, or_false] at hb
    rcases hb with h | h <;> omega
  · rw [if_neg hlt] at hb
    simp only [List.mem_cons, List.not_mem_nil, or_false] at hb
    rcases hb with h | h | h | h <;> omega

/-- Each byte of a UTF-16LE encoded string is below 256. -/
theorem utf16le_bytes_lt (s : List Char) : ∀ b ∈ utf16leEncode s, b < 256 := by
  intro b hb
  simp only [utf16leEncode, List.mem_flatMap] at hb
  obtain ⟨a, -, hba⟩ := hb
  exact utf16leEncodeChar_lt a b hba

/-- UTF-16LE decoding inverts encoding, for every string. -/
theorem utf16le_roundtrip : ∀ (s : List Char), utf16leDecode (utf16leEncode s) = some s := by
  intro s
  induction s with
  | nil => rfl
  | cons c cs ih =>
    have hval : c.toNat < 55296 ∨ (57343 < c.toNat ∧ c.toNat < 1114112) := c.valid
    show utf16leDecode (utf16leEncodeChar c ++ utf16leEncode cs) = _
    by_cases hlt : c.toNat < 65536
    · rw [show utf16leEncodeChar c = [c.toNat % 256, c.toNat / 256] from by
        simp [utf16leEncodeChar, hlt]]
      have hu : c.toNat % 256 + 256 * (c.toNat / 256) = c.toNat := Nat.mod_add_div _ _
      rw [List.cons_append, List.cons_append, List.nil_append, utf16leDecode.eq_def]
      simp only []
      rw [hu, if_pos (by omega : c.toNat < 55296 ∨ 57344 ≤ c.toNat), ih]
      simp [char_ofNat_toNat]
    · rw [show utf16leEncodeChar c =
          [(55296 + (c.toNat - 65536) / 1024) % 256, (55296 + (c.toNat - 65536) / 1024) / 256,
           (56320 + (c.toNat - 65536) % 1024) % 256, (56320 + (c.toNat - 65536) % 1024) / 256] from by
        simp [utf16leEncodeChar, hlt]]
      have hu1 : (55296 + (c.toNat - 65536) / 1024) % 256 +
          256 * ((55296 + (c.toNat - 65536) / 1024) / 256) =
          55296 + (c.toNat - 65536) / 1024 := Nat.mod_add_div _ _
      have hu2 : (56320 + (c.toNat - 65536) % 1024) % 256 +
          256 * ((56320 + (c.toNat - 65536) % 1024) / 256) =
          56320 + (c.toNat - 65536) % 1024 := Nat.mod_add_div _ _
      have hd1 : (c.toNat - 65536) / 1024 < 1024 := by omega
      have hm1 : (c.toNat - 65536) % 1024 < 1024 := Nat.mod_lt _ (by norm_num)
      simp only [List.cons_append, List.nil_append]
      rw [utf16leDecode.eq_def]
      simp only []
      rw [hu1]
      rw [if_neg (by omega), if_pos (by omega)]
      rw [hu2]
      rw [if_pos (by constructor <;> omega), ih]
      have hn : 65536 + (55296 + (c.toNat - 65536) / 1024 - 55296) * 1024 +
          (56320 + (c.toNat - 65536) % 1024 - 56320) = c.toNat := by omega
      rw [hn, char_ofNat_toNat]
      rfl

/-- The base64 alphabet (`encoding/base64.StdEncoding`): `A-Z`, `a-z`,
`0-9`, `+`, `/`. -/
def b64Char (i : Nat) : Char :=
  if i < 26 then Char.ofNat (65 + i)
  else if i < 52 then Char.ofNat (97 + (i - 26))
  else if i < 62 then Char.ofNat (48 + (i - 52))
  else if i = 62 then '+'
  else '/'

/-- Base64 alphabet inversion; `none` on anything else (including the
padding `'='`). -/
def b64DecChar (c : Char) : Option Nat :=
  if 65 ≤ c.toNat ∧ c.toNat ≤ 90 then some (c.toNat - 65)
  else if 97 ≤ c.toNat ∧ c.toNat ≤ 122 then some (c.toNat - 71)
  else if 48 ≤ c.toNat ∧ c.toNat ≤ 57 then some (c.toNat + 4)
  else if c = '+' then some 62
  else if c = '/' then some 63
  else none

theorem b64DecChar_b64Char : ∀ i, i < 64 → b64DecChar (b64Char i) = some i := by decide

theorem b64Char_ne_pad : ∀ i, i < 64 → b64Char i ≠ '=' := by decide

/-- Standard base64 encoding with padding, three input bytes per four
output characters. -/
def b64Encode : List Nat → List Char
  | [] => []
  | [b1] => [b64Char (b1 / 4), b64Char (b1 % 4 * 16), '=', '=']
  | [b1, b2] => [b64Char (b1 / 4), b64Char (b1 % 4 * 16 + b2 / 16), b64Char (b2 % 16 * 4), '=']
  | b1 :: b2 :: b3 :: rest =>
    b64Char (b1 / 4) :: b64Char (b1 % 4 * 16 + b2 / 16) ::
      b64Char (b2 % 16 * 4 + b3 / 64) :: b64Char (b3 % 64) :: b64Encode rest

/-- Standard base64 decoding with padding; `none` on malformed input. -/
def b64Decode : List Char → Option (List Nat)
  | [] => some []
  | c1 :: c2 :: c3 :: c4 :: rest =>
    (b64DecChar c1).bind fun i1 =>
      (b64DecChar c2).bind fun i2 =>
        if c3 = '=' then
          if c4 = '=' ∧ rest = [] then some [i1 * 4 + i2 / 16] else none
        else
          (b64DecChar c3).bind fun i3 =>
            if c4 = '=' then
              if rest = [] then some [i1 * 4 + i2 / 16, i2 % 16 * 16 + i3 / 4] else none
            else
              (b64DecChar c4).bind fun i4 =>
                (b64Decode rest).map
                  (fun bs => (i1 * 4 + i2 / 16) :: (i2 % 16 * 16 + i3 / 4) ::
                    (i3 % 4 * 64 + i4) :: bs)
  | _ => none

/-- Base64 decoding inverts encoding on every byte list. -/
theorem b64_roundtrip : ∀ (bs : List Nat), (∀ b ∈ bs, b < 256) →
    b64Decode (b64Encode bs) = some bs
  | [] => fun _ => rfl
  | [b1] => fun h => by
    have hb1 : b1 < 256 := h b1 (by simp)
    show b64Decode [b64Char (b1 / 4), b64Char (b1 % 4 * 16), '=', '='] = some [b1]
    rw [b64Decode.eq_def]
    simp only [b64DecChar_b64Char _ (show b1 / 4 < 64 by omega),
      b64DecChar_b64Char _ (show b1 % 4 * 16 < 64 by omega), Option.bind]
    norm_num
    omega
  | [b1, b2] => fun h => by
    have hb1 : b1 < 256 := h b1 (by simp)
    have hb2 : b2 < 256 := h b2 (by simp)
    show b64Decode [b64Char (b1 / 4), b64Char (b1 % 4 * 16 + b2 / 16),
        b64Char (b2 % 16 * 4), '='] = some [b1, b2]
    rw [b64Decode.eq_def]
    simp only [b64DecChar_b64Char _ (show b1 / 4 < 64 by omega),
      b64DecChar_b64Char _ (show b1 % 4 * 16 + b2 / 16 < 64 by omega),
      b64DecChar_b64Char _ (show b2 % 16 * 4 < 64 by omega), Option.bind]
    rw [if_neg (b64Char_ne_pad _ (by omega))]
    norm_num
    omega
  | b1 :: b2 :: b3 :: rest => fun h => by
    have hb1 : b1 < 256 := h b1 (by simp)
    have hb2 : b2 < 256 := h b2 (by simp)
    have hb3 : b3 < 256 := h b3 (by simp)
    have ih := b64_roundtrip rest (fun b hb => h b (by simp [hb]))
    show b64Decode (b64Char (b1 / 4) :: b64Char (b1 % 4 * 16 + b2 / 16) ::
        b64Char (b2 % 16 * 4 + b3 / 64) :: b64Char (b3 % 64) :: b64Encode rest) = _
    rw [b64Decode.eq_def]
    simp only [b64DecChar_b64Char _ (show b1 / 4 < 64 by omega),
      b64DecChar_b64Char _ (show b1 % 4 * 16 + b2 / 16 < 64 by omega),
      b64DecChar_b64Char _ (show b2 % 16 * 4 + b3 / 64 < 64 by omega),
      b64DecChar_b64Char _ (show b3 % 64 < 64 by omega), Option.bind]
    rw [if_neg (b64Char_ne_pad _ (by omega)), if_neg (b64Char_ne_pad _ (by omega)), ih]
    norm_num
    omega

/-- The three-line command block `generateShellArgv` builds for the
console shell: force console input/output encoding to UTF-8, invoke the
interpreter on the uploaded script, propagate the interpreter's exit
code.  Lines are CRLF-terminated, as in the source. -/
def commandBlock (shell script : String) : String :=
  "$OutputEncoding = [console]::InputEncoding = [console]::OutputEncoding = New-Object System.Text.UTF8Encoding\r\n"
    ++ (shell ++ " " ++ script ++ "\r\n")
    ++ "exit $LASTEXITCODE\r\n"

/-- `generateShellArgv` (`run.go`): direct interpreter invocation for
`bash`; for `pwsh` the full option vector ending in `-EncodedCommand`
followed by the base64 of the UTF-16LE bytes of the command block.  The
`default` branch of the Go switch panics (`"unsupported shell"`); the
CLI restricts the flag to the two supported values, and no theorem below
relies on that branch, modelled as an empty vector. -/
def generateShellArgv (shell script : String) : List String :=
  match shell with
  | "bash" => ["bash", script]
  | "pwsh" =>
    ["pwsh", "-NoProfile", "-NoLogo", "-InputFormat", "text", "-OutputFormat", "text",
     "-NonInteractive", "-ExecutionPolicy", "Bypass", "-EncodedCommand",
     String.mk (b64Encode (utf16leEncode (commandBlock "pwsh" script).data))]
  | _ => []

/-- A string is its character list. -/
theorem string_mk_data (s : String) : String.mk s.data = s := rfl

set_option maxRecDepth 10000 in
/-- C7: for every script path, the pwsh invocation vector ends with the
base64 encoding of the UTF-16LE encoding of exactly the three-line
command block, and base64-decoding then UTF-16LE-decoding that final
argument recovers the block byte-for-byte. -/
theorem pwsh_encoded_command_roundtrip :
    ∀ script : String,
      (generateShellArgv "pwsh" script).getLast? =
        some (String.mk (b64Encode (utf16leEncode (commandBlock "pwsh" script).data))) ∧
      ((generateShellArgv "pwsh" script).getLast?.bind fun arg =>
          ((b64Decode arg.data).bind utf16leDecode).map String.mk) =
        some (commandBlock "pwsh" script) := by
  intro script
  have hlast : (generateShellArgv "pwsh" script).getLast? =
      some (String.mk (b64Encode (utf16leEncode (commandBlock "pwsh" script).data))) := by
    simp [generateShellArgv, List.getLast?]
  refine ⟨hlast, ?_⟩
  rw [hlast]
  have h1 : b64Decode (b64Encode (utf16leEncode (commandBlock "pwsh" script).data)) =
      some (utf16leEncode (commandBlock "pwsh" script).data) :=
    b64_roundtrip _ (utf16le_bytes_lt _)
  have h2 := utf16le_roundtrip (commandBlock "pwsh" script).data
  rw [Option.some_bind]
  show ((b64Decode (b64Encode (utf16leEncode (commandBlock "pwsh" script).data))).bind
      utf16leDecode).map String.mk = _
  rw [h1, Option.some_bind, h2, Option.map_some', string_mk_data]
